import Mathlib

/-!
Shallow embedding of the core pipeline of `src/scraper/update_movies.py`
(film-metrics-dashboard): the two fetch strategies `get_popular_movies` and
`get_representative_movies`, and the aggregation pass `calculate_stats`.

Modelling conventions:
* Python floats are modelled as rationals (ℚ); the claims under study concern
  ordering, sums, means and exclusion, not binary rounding of floats.
* A raw API entry always carries `id`, `title` and `vote_average` (the
  endpoint shape guarantees them); `genre_ids`, `poster_path`, `release_date`,
  `popularity` and `vote_count` are modelled as `Option` values where `none`
  stands for the field being absent from the raw JSON object.
* A processed movie dict always carries all eight keys (the fetchers set each
  one unconditionally); for the optional ones, `none` stands for the Python
  value `None` that `m.get(field)` produces when the raw entry lacked `field`.
* Fallible Python code (a `KeyError` on `m["genre_ids"]`, a `TypeError` on
  `None > 0` or `0 + None`) is modelled with `Except String`.
* The HTTP layer is an oracle passed in as a function: `none` models a
  response with a non-success status code, `some results` models a 200
  response whose parsed `results` field is `results`.
* Python dicts used as genre maps are modelled as association lists
  `List (Int × String)`; `.items()` iteration order is list order and
  `.get key default` is `find?` with a fallback.
-/

/-- One raw entry of the `results` array returned by the `/movie/popular` and
`/discover/movie` endpoints. -/
structure RawMovie where
  id : Int
  title : String
  vote_average : ℚ
  genre_ids : Option (List Int)
  poster_path : Option String
  release_date : Option String
  popularity : Option ℚ
  vote_count : Option Int
deriving Repr, DecidableEq

/-- One processed movie dict, as appended to `processed_movies` by either
fetcher (keys `id`, `title`, `rating`, `genres`, `poster_path`,
`release_date`, `popularity`, `vote_count`). -/
structure Movie where
  id : Int
  title : String
  rating : ℚ
  genres : List String
  poster_path : Option String
  release_date : Option String
  popularity : Option ℚ
  vote_count : Option Int
deriving Repr, DecidableEq

/-- `genre_map.get(gid, "Other")`: dictionary lookup with the "Other"
fallback for unresolved genre ids. -/
def genreLookup (genre_map : List (Int × String)) (gid : Int) : String :=
  match genre_map.find? (fun p => p.1 = gid) with
  | some p => p.2
  | none => "Other"

/-- Building the processed movie dict from a raw entry and the already
resolved genre-name list (the eight `processed_movies.append({...})` keys,
identical in both fetchers). -/
def mkMovie (m : RawMovie) (genre_names : List String) : Movie :=
  { id := m.id
    title := m.title
    rating := m.vote_average
    genres := genre_names
    poster_path := m.poster_path
    release_date := m.release_date
    popularity := m.popularity
    vote_count := m.vote_count }

/-- The mutable state of one fetch run: `processed_movies`, `seen_ids` and
`duplicates_count`.  `seen_ids` is a Python `set`; it is modelled as the list
of ids in insertion order (ids are only added when not yet present, so the
list is duplicate-free and its length is the set's size). -/
structure FetchState where
  processed : List Movie
  seen : List Int
  dups : Nat
deriving Repr, DecidableEq

/-- The empty state at the top of each fetcher. -/
def initState : FetchState :=
  { processed := [], seen := [], dups := 0 }

/-! ### get_popular_movies -/

/-- The body of `for m in movies_on_page` in `get_popular_movies`:
skip (and count) an already seen id; otherwise mark seen, resolve genres via
the unguarded `m["genre_ids"]` access (a `KeyError` if the field is absent,
`["Other"]` if the list is empty) and append the processed dict. -/
def popularStep (genre_map : List (Int × String)) (st : FetchState)
    (m : RawMovie) : Except String FetchState :=
  if st.seen.contains m.id then
    .ok { st with dups := st.dups + 1 }
  else
    match m.genre_ids with
    | none => .error "KeyError: genre_ids"
    | some gids =>
      let genre_names := if gids = [] then ["Other"] else gids.map (genreLookup genre_map)
      .ok { processed := st.processed ++ [mkMovie m genre_names]
            seen := st.seen ++ [m.id]
            dups := st.dups }

/-- The inner loop of `get_popular_movies` over the entries of one page. -/
def popularMovies (genre_map : List (Int × String)) (st : FetchState) :
    List RawMovie → Except String FetchState
  | [] => .ok st
  | m :: rest =>
    match popularStep genre_map st m with
    | .error e => .error e
    | .ok st2 => popularMovies genre_map st2 rest

/-- The page loop of `get_popular_movies`: a non-success response (oracle
value `none`) only logs a warning and the loop continues with the next page;
a success response has its `results` processed in order. -/
def popularPages (fetch : Nat → Option (List RawMovie))
    (genre_map : List (Int × String)) (st : FetchState) :
    List Nat → Except String FetchState
  | [] => .ok st
  | p :: rest =>
    match fetch p with
    | none => popularPages fetch genre_map st rest
    | some results =>
      match popularMovies genre_map st results with
      | .error e => .error e
      | .ok st2 => popularPages fetch genre_map st2 rest

/-- `get_popular_movies(genre_map, pages)`: pages `1..pages` of the popular
listing are processed and only `processed_movies` is returned. -/
def get_popular_movies (fetch : Nat → Option (List RawMovie))
    (genre_map : List (Int × String)) (pages : Nat) :
    Except String (List Movie) :=
  match popularPages fetch genre_map initState (List.range' 1 pages) with
  | .error e => .error e
  | .ok st => .ok st.processed

/-! ### get_representative_movies -/

/-- Genre resolution in `get_representative_movies`:
`[genre_map.get(gid, "Other") for gid in m.get("genre_ids", [])] if
m.get("genre_ids") else ["Other"]` — a guarded access whose condition is the
Python truthiness of `m.get("genre_ids")`, so an absent field and an empty
list both yield `["Other"]`. -/
def resolveGenresRepr (genre_map : List (Int × String))
    (gids : Option (List Int)) : List String :=
  match gids with
  | some (g :: gs) => (g :: gs).map (genreLookup genre_map)
  | some [] => ["Other"]
  | none => ["Other"]

/-- The body of `for m in movies_on_page` in `get_representative_movies`,
threading the per-genre counter `movies_collected_for_this_genre`:
reaching the target stops the page; a globally seen id increments
`duplicates_count` AND the per-genre counter without appending; a fresh id is
marked seen, counted, and appended with its resolved genre names. -/
def reprMovies (genre_map : List (Int × String)) (target : Nat)
    (st : FetchState) (coll : Nat) : List RawMovie → FetchState × Nat
  | [] => (st, coll)
  | m :: rest =>
    if coll ≥ target then (st, coll)
    else if st.seen.contains m.id then
      reprMovies genre_map target { st with dups := st.dups + 1 } (coll + 1) rest
    else
      reprMovies genre_map target
        { processed := st.processed ++ [mkMovie m (resolveGenresRepr genre_map m.genre_ids)]
          seen := st.seen ++ [m.id]
          dups := st.dups }
        (coll + 1) rest

/-- The page loop of `get_representative_movies` for one genre: stop when the
per-genre counter reaches the target, break the pagination on a non-success
response (oracle `none`) or on an empty page, and otherwise process the
entries and continue with the next page. -/
def reprPages (fetchg : Nat → Option (List RawMovie))
    (genre_map : List (Int × String)) (target : Nat)
    (st : FetchState) (coll : Nat) : List Nat → FetchState × Nat
  | [] => (st, coll)
  | p :: rest =>
    if coll ≥ target then (st, coll)
    else
      match fetchg p with
      | none => (st, coll)
      | some results =>
        if results = [] then (st, coll)
        else
          match reprMovies genre_map target st coll results with
          | (st2, coll2) => reprPages fetchg genre_map target st2 coll2 rest

/-- The genre loop of `get_representative_movies`: for each genre, in
iteration order of the genre map, run the page loop with a fresh per-genre
counter; the global `FetchState` (including `seen_ids`) is threaded through
all genres.  `pagesToFetch` is `math.ceil(target_per_genre / 20)`. -/
def reprGenres (fetch : Int → Nat → Option (List RawMovie))
    (genre_map : List (Int × String)) (target : Nat) (pagesToFetch : Nat) :
    List (Int × String) → FetchState → FetchState
  | [], st => st
  | (gid, _) :: rest, st =>
    reprGenres fetch genre_map target pagesToFetch rest
      (reprPages (fetch gid) genre_map target st 0 (List.range' 1 pagesToFetch)).1

/-- `get_representative_movies(genre_map, target_per_genre)`: collect up to
`target_per_genre` movies for each genre of the map (pages of 20) and return
only `processed_movies`. -/
def get_representative_movies (fetch : Int → Nat → Option (List RawMovie))
    (genre_map : List (Int × String)) (target : Nat) : List Movie :=
  (reprGenres fetch genre_map target ((target + 19) / 20) genre_map initState).processed

example : get_popular_movies (fun _ => some []) [] 2 = .ok [] := rfl

example :
    get_popular_movies
      (fun _ => some [{ id := 1, title := "a", vote_average := 7, genre_ids := some [5],
                        poster_path := none, release_date := none,
                        popularity := some 1, vote_count := some 2 }]) [] 1
      = .ok [{ id := 1, title := "a", rating := 7, genres := ["Other"],
               poster_path := none, release_date := none,
               popularity := some 1, vote_count := some 2 }] := rfl

/-! ### calculate_stats -/

/-- One record of the `genre_extended_stats` list produced by
`calculate_stats`. -/
structure GenreStats where
  genre_name : String
  average_rating : ℚ
  average_popularity : ℚ
  total_votes : Int
  movie_count : Nat
  top_movies : List Movie
deriving Repr, DecidableEq

/-- Python's round-half-to-even on an exact rational. -/
def roundHalfEven (q : ℚ) : ℤ :=
  let f := ⌊q⌋
  let r := q - f
  if r < 1 / 2 then f
  else if 1 / 2 < r then f + 1
  else if 2 ∣ f then f else f + 1

/-- `round(x, 2)`: round to two decimal places, ties to even. -/
def round2 (q : ℚ) : ℚ :=
  (roundHalfEven (q * 100) : ℚ) / 100

/-- The filter `m.get("vote_count", 0) > 0 and m.get("rating", 0) > 0`.
Every processed movie dict carries both keys, so the `0` defaults are dead;
`rating` is always a number, but `vote_count` may hold the Python value
`None` (modelled `none`), and `None > 0` raises a `TypeError`. -/
def qualifies (m : Movie) : Except String Bool :=
  match m.vote_count with
  | none => .error "TypeError: comparison not supported between NoneType and int"
  | some v => .ok (decide (0 < v) && decide (0 < m.rating))

/-- The pure content of `qualifies` on movies whose `vote_count` is a
number (`false` on `none`, where `qualifies` would raise instead). -/
def qualB (m : Movie) : Bool :=
  match m.vote_count with
  | none => false
  | some v => decide (0 < v) && decide (0 < m.rating)

/-- `stats[genre].append(m)` on the `defaultdict(list)`: the association
list keyed by genre name, in key-insertion order; a missing key is created
at the end with the one-element list. -/
def insertGroup (s : List (String × List Movie)) (g : String) (m : Movie) :
    List (String × List Movie) :=
  match s with
  | [] => [(g, [m])]
  | (k, v) :: rest =>
    if k = g then (k, v ++ [m]) :: rest else (k, v) :: insertGroup rest g m

/-- `for genre in m["genres"]: stats[genre].append(m)`. -/
def addGenres (m : Movie) (s : List (String × List Movie)) :
    List String → List (String × List Movie)
  | [] => s
  | g :: gs => addGenres m (insertGroup s g m) gs

/-- The grouping loop of `calculate_stats`: qualifying movies are appended
to each of their genres' groups, the rest are collected in
`skipped_movies`; a `None` vote_count raises. -/
def groupMovies (groups : List (String × List Movie)) (skipped : List Movie) :
    List Movie → Except String (List (String × List Movie) × List Movie)
  | [] => .ok (groups, skipped)
  | m :: rest =>
    match qualifies m with
    | .error e => .error e
    | .ok true => groupMovies (addGenres m groups m.genres) skipped rest
    | .ok false => groupMovies groups (skipped ++ [m]) rest

/-- `sum(m.get("popularity", 0) for m in genre_movies)`: the key is always
present, so a movie whose raw entry lacked `popularity` contributes the
Python value `None` and the running `0 + None` raises a `TypeError`. -/
def sumPopularity : List Movie → Except String ℚ
  | [] => .ok 0
  | m :: rest =>
    match m.popularity with
    | none => .error "TypeError: unsupported operand types for +: int and NoneType"
    | some v =>
      match sumPopularity rest with
      | .error e => .error e
      | .ok s => .ok (v + s)

/-- `sum(m.get("vote_count", 0) for m in genre_movies)`, with the same
`TypeError` on a `None` value. -/
def sumVotes : List Movie → Except String Int
  | [] => .ok 0
  | m :: rest =>
    match m.vote_count with
    | none => .error "TypeError: unsupported operand types for +: int and NoneType"
    | some v =>
      match sumVotes rest with
      | .error e => .error e
      | .ok s => .ok (v + s)

/-- A stable insertion of a movie in front of the first element whose rating
does not exceed it: the recursive step of the stable descending sort
`sorted(genre_movies, key=lambda x: x["rating"], reverse=True)`. -/
def insertByRating (m : Movie) : List Movie → List Movie
  | [] => [m]
  | x :: xs => if x.rating ≤ m.rating then m :: x :: xs else x :: insertByRating m xs

/-- `sorted(genre_movies, key=lambda x: x["rating"], reverse=True)`: a
stable sort by rating in descending order (Python's sort is stable, also
with `reverse=True`). -/
def sortByRatingDesc : List Movie → List Movie
  | [] => []
  | m :: rest => insertByRating m (sortByRatingDesc rest)

/-- The per-genre body of the statistics loop: averages, total votes and the
truncated descending top list.  The caller guarantees the group is
non-empty, so the divisions are by a positive count. -/
def aggregateGenre (top_count : Nat) (g : String) (gms : List Movie) :
    Except String GenreStats :=
  let movie_count := gms.length
  let avg_rating := (gms.map (fun m => m.rating)).sum / (movie_count : ℚ)
  match sumPopularity gms with
  | .error e => .error e
  | .ok popSum =>
    match sumVotes gms with
    | .error e => .error e
    | .ok total_votes =>
      .ok { genre_name := g
            average_rating := round2 avg_rating
            average_popularity := round2 (popSum / (movie_count : ℚ))
            total_votes := total_votes
            movie_count := movie_count
            top_movies := (sortByRatingDesc gms).take top_count }

/-- `for genre, genre_movies in stats.items()`: empty groups are skipped
(`if not genre_movies: continue`), the rest are aggregated in key order. -/
def statsLoop (top_count : Nat) :
    List (String × List Movie) → Except String (List GenreStats)
  | [] => .ok []
  | (g, gms) :: rest =>
    if gms = [] then statsLoop top_count rest
    else
      match aggregateGenre top_count g gms with
      | .error e => .error e
      | .ok s =>
        match statsLoop top_count rest with
        | .error e => .error e
        | .ok res => .ok (s :: res)

/-- `calculate_stats(movies, top_count=10)`: group the movies by genre
(skipping, but only logging, the unrated ones) and aggregate each non-empty
group; only `genre_extended_stats` is returned. -/
def calculate_stats (movies : List Movie) (top_count : Nat) :
    Except String (List GenreStats) :=
  match groupMovies [] [] movies with
  | .error e => .error e
  | .ok (groups, _) => statsLoop top_count groups

/-! Pure characterisations used by the theorems. -/

/-- The group that genre `g` ends up with: every qualifying movie, in input
order, once per occurrence of `g` in its genre list. -/
def groupOf (g : String) (movies : List Movie) : List Movie :=
  (movies.filter qualB).flatMap (fun m => List.replicate (m.genres.count g) m)

/-- Folding a genre-name list into a key list, keeping first occurrences
only (the key-insertion order of the `defaultdict`). -/
def addKeys (ks : List String) : List String → List String
  | [] => ks
  | g :: gs => addKeys (if ks.contains g then ks else ks ++ [g]) gs

/-- The pure grouping fold: `groupMovies` restricted to movies that pass the
filter (the skipped ones leave the groups untouched). -/
def foldGroups (g0 : List (String × List Movie)) : List Movie → List (String × List Movie)
  | [] => g0
  | m :: rest => foldGroups (addGenres m g0 m.genres) rest

/-- Association-list lookup with the empty default, the value
`stats[genre]` reads before appending. -/
def lookupD (g : String) (s : List (String × List Movie)) : List Movie :=
  match s.find? (fun p => p.1 = g) with
  | some p => p.2
  | none => []

example :
    calculate_stats
      [{ id := 1, title := "a", rating := 7, genres := ["Action"],
         poster_path := none, release_date := none,
         popularity := some 1, vote_count := some 2 }] 10
      = .ok [{ genre_name := "Action", average_rating := 7, average_popularity := 1,
               total_votes := 2, movie_count := 1,
               top_movies := [{ id := 1, title := "a", rating := 7, genres := ["Action"],
                                poster_path := none, release_date := none,
                                popularity := some 1, vote_count := some 2 }] }] := by
  with_unfolding_all rfl

/-! ### Fetch-state invariants -/

/-- The dedup invariant of both fetchers: `seen_ids` is exactly the list of
ids of the retained movies, in order, without repetition. -/
def FetchInv (st : FetchState) : Prop :=
  st.seen = st.processed.map Movie.id ∧ st.seen.Nodup

theorem fetchInv_init : FetchInv initState := by
  constructor <;> simp [initState]

theorem fetchInv_append (st : FetchState) (m : Movie)
    (h : FetchInv st) (hm : st.seen.contains m.id = false) :
    FetchInv { processed := st.processed ++ [m], seen := st.seen ++ [m.id],
               dups := st.dups } := by
  obtain ⟨h1, h2⟩ := h
  have hmem : m.id ∉ st.seen := by simpa using hm
  constructor
  · simp [h1]
  · simp [List.nodup_append, h2, hmem]

theorem reprMovies_inv (gm : List (Int × String)) (target : Nat) :
    ∀ (ms : List RawMovie) (st : FetchState) (coll : Nat), FetchInv st →
      FetchInv (reprMovies gm target st coll ms).1 := by
  intro ms
  induction ms with
  | nil => intro st coll h; exact h
  | cons m rest ih =>
    intro st coll h
    rw [reprMovies]
    by_cases hc : coll ≥ target
    · simpa [hc]
    · simp only [if_neg hc]
      by_cases hs : st.seen.contains m.id
      · simp only [hs, if_pos]
        exact ih _ _ ⟨h.1, h.2⟩
      · simp only [hs, Bool.false_eq_true, if_neg, if_false]
        refine ih _ _ ?_
        exact fetchInv_append st _ h (Bool.eq_false_iff.mpr hs)

theorem reprPages_inv (fetchg : Nat → Option (List RawMovie))
    (gm : List (Int × String)) (target : Nat) :
    ∀ (ps : List Nat) (st : FetchState) (coll : Nat), FetchInv st →
      FetchInv (reprPages fetchg gm target st coll ps).1 := by
  intro ps
  induction ps with
  | nil => intro st coll h; exact h
  | cons p rest ih =>
    intro st coll h
    rw [reprPages]
    by_cases hc : coll ≥ target
    · simpa [hc]
    · simp only [if_neg hc]
      cases hf : fetchg p with
      | none => exact h
      | some results =>
        by_cases he : results = []
        · simpa [he]
        · simp only [he, if_neg, if_false]
          exact ih _ _ (reprMovies_inv gm target results st coll h)

theorem reprGenres_inv (fetch : Int → Nat → Option (List RawMovie))
    (gm : List (Int × String)) (target pagesToFetch : Nat) :
    ∀ (gl : List (Int × String)) (st : FetchState), FetchInv st →
      FetchInv (reprGenres fetch gm target pagesToFetch gl st) := by
  intro gl
  induction gl with
  | nil => intro st h; exact h
  | cons g rest ih =>
    intro st h
    cases g with
    | mk gid gname =>
      rw [reprGenres]
      exact ih _ (reprPages_inv (fetch gid) gm target _ st 0 h)

theorem popularStep_inv (gm : List (Int × String)) (st st2 : FetchState)
    (m : RawMovie) (h : FetchInv st) (hok : popularStep gm st m = .ok st2) :
    FetchInv st2 := by
  rw [popularStep] at hok
  by_cases hs : st.seen.contains m.id
  · simp only [hs, if_pos] at hok
    cases hok
    exact ⟨h.1, h.2⟩
  · simp only [hs, Bool.false_eq_true, if_neg, if_false] at hok
    cases hg : m.genre_ids with
    | none => rw [hg] at hok; exact Except.noConfusion hok
    | some gids =>
      rw [hg] at hok
      simp only [Except.ok.injEq] at hok
      subst hok
      exact fetchInv_append st _ h (Bool.eq_false_iff.mpr hs)

theorem popularMovies_inv (gm : List (Int × String)) :
    ∀ (ms : List RawMovie) (st st2 : FetchState), FetchInv st →
      popularMovies gm st ms = .ok st2 → FetchInv st2 := by
  intro ms
  induction ms with
  | nil =>
    intro st st2 h hok
    rw [popularMovies] at hok
    cases hok
    exact h
  | cons m rest ih =>
    intro st st2 h hok
    rw [popularMovies] at hok
    cases hstep : popularStep gm st m with
    | error e => rw [hstep] at hok; exact Except.noConfusion hok
    | ok st3 =>
      rw [hstep] at hok
      exact ih st3 st2 (popularStep_inv gm st st3 m h hstep) hok

theorem popularPages_inv (fetch : Nat → Option (List RawMovie))
    (gm : List (Int × String)) :
    ∀ (ps : List Nat) (st st2 : FetchState), FetchInv st →
      popularPages fetch gm st ps = .ok st2 → FetchInv st2 := by
  intro ps
  induction ps with
  | nil =>
    intro st st2 h hok
    rw [popularPages] at hok
    cases hok
    exact h
  | cons p rest ih =>
    intro st st2 h hok
    rw [popularPages] at hok
    split at hok
    · exact ih st st2 h hok
    · split at hok
      · exact Except.noConfusion hok
      · rename_i st3 hm
        exact ih st3 st2 (popularMovies_inv gm _ st st3 h hm) hok

/-! ### Grouping lemmas -/

theorem lookupD_insertGroup (s : List (String × List Movie)) (g g2 : String)
    (m : Movie) :
    lookupD g (insertGroup s g2 m) =
      if g = g2 then lookupD g s ++ [m] else lookupD g s := by
  induction s with
  | nil =>
    by_cases h : g = g2
    · subst h; simp [lookupD, insertGroup, List.find?]
    · simp [lookupD, insertGroup, List.find?, h, Ne.symm h]
  | cons q rest ih =>
    cases q with
    | mk k v =>
      by_cases hk : k = g2
      · subst hk
        by_cases hg : g = k
        · subst hg; simp [lookupD, insertGroup, List.find?]
        · simp [lookupD, insertGroup, List.find?, hg, Ne.symm hg]
      · by_cases hg : g = k
        · subst hg
          simp [lookupD, insertGroup, List.find?, hk, Ne.symm hk]
        · simp only [insertGroup, if_neg hk]
          have h1 : lookupD g ((k, v) :: insertGroup rest g2 m) =
              lookupD g (insertGroup rest g2 m) := by
            simp [lookupD, List.find?, Ne.symm hg]
          have h2 : lookupD g ((k, v) :: rest) = lookupD g rest := by
            simp [lookupD, List.find?, Ne.symm hg]
          rw [h1, h2, ih]

theorem keys_insertGroup (s : List (String × List Movie)) (g : String)
    (m : Movie) :
    (insertGroup s g m).map Prod.fst =
      if (s.map Prod.fst).contains g then s.map Prod.fst
      else s.map Prod.fst ++ [g] := by
  induction s with
  | nil => simp [insertGroup]
  | cons q rest ih =>
    cases q with
    | mk k v =>
      by_cases hk : k = g
      · subst hk
        simp [insertGroup]
      · simp only [insertGroup, if_neg hk, List.map_cons, List.contains_cons]
        have : (g == k) = false := by
          simp [Ne.symm hk]
        rw [this]
        simp only [Bool.false_or]
        rw [ih]
        by_cases hc : (rest.map Prod.fst).contains g
        · rw [if_pos hc, if_pos hc]
        · rw [if_neg hc, if_neg hc, List.cons_append]

theorem lookupD_addGenres (m : Movie) :
    ∀ (gs : List String) (s : List (String × List Movie)) (g : String),
      lookupD g (addGenres m s gs) =
        lookupD g s ++ List.replicate (gs.count g) m := by
  intro gs
  induction gs with
  | nil => intro s g; simp [addGenres]
  | cons g2 gs2 ih =>
    intro s g
    rw [addGenres, ih, lookupD_insertGroup]
    by_cases h : g = g2
    · subst h
      rw [List.count_cons_self, if_pos rfl]
      simp [List.replicate_succ]
    · rw [if_neg h, List.count_cons_of_ne h]

theorem keys_addGenres (m : Movie) :
    ∀ (gs : List String) (s : List (String × List Movie)),
      (addGenres m s gs).map Prod.fst = addKeys (s.map Prod.fst) gs := by
  intro gs
  induction gs with
  | nil => intro s; simp [addGenres, addKeys]
  | cons g2 gs2 ih =>
    intro s
    rw [addGenres, ih, addKeys, keys_insertGroup]

theorem addKeys_append (l1 l2 : List String) :
    ∀ ks, addKeys ks (l1 ++ l2) = addKeys (addKeys ks l1) l2 := by
  induction l1 with
  | nil => intro ks; simp [addKeys]
  | cons g gs ih => intro ks; rw [List.cons_append, addKeys, addKeys, ih]

theorem mem_addKeys (g : String) :
    ∀ (l ks : List String), g ∈ addKeys ks l ↔ g ∈ ks ∨ g ∈ l := by
  intro l
  induction l with
  | nil => intro ks; simp [addKeys]
  | cons g2 gs ih =>
    intro ks
    rw [addKeys]
    by_cases hc : ks.contains g2
    · rw [if_pos hc, ih]
      have hg2 : g2 ∈ ks := by simpa using hc
      constructor
      · rintro (h | h)
        · exact Or.inl h
        · exact Or.inr (List.mem_cons_of_mem _ h)
      · rintro (h | h)
        · exact Or.inl h
        · rcases List.mem_cons.mp h with h | h
          · subst h; exact Or.inl hg2
          · exact Or.inr h
    · rw [if_neg hc, ih]
      simp only [List.mem_append, List.mem_singleton, List.mem_cons]
      tauto

theorem nodup_addKeys :
    ∀ (l ks : List String), ks.Nodup → (addKeys ks l).Nodup := by
  intro l
  induction l with
  | nil => intro ks h; exact h
  | cons g gs ih =>
    intro ks h
    rw [addKeys]
    by_cases hc : ks.contains g
    · rw [if_pos hc]; exact ih ks h
    · rw [if_neg hc]
      refine ih _ ?_
      have hg : g ∉ ks := by simpa using hc
      simp [List.nodup_append, h, hg]

theorem lookupD_foldGroups :
    ∀ (ms : List Movie) (g0 : List (String × List Movie)) (g : String),
      lookupD g (foldGroups g0 ms) =
        lookupD g g0 ++ ms.flatMap (fun m => List.replicate (m.genres.count g) m) := by
  intro ms
  induction ms with
  | nil => intro g0 g; simp [foldGroups]
  | cons m rest ih =>
    intro g0 g
    rw [foldGroups, ih, lookupD_addGenres, List.flatMap_cons, List.append_assoc]

theorem keys_foldGroups :
    ∀ (ms : List Movie) (g0 : List (String × List Movie)),
      (foldGroups g0 ms).map Prod.fst =
        addKeys (g0.map Prod.fst) (ms.flatMap Movie.genres) := by
  intro ms
  induction ms with
  | nil => intro g0; simp [foldGroups, addKeys]
  | cons m rest ih =>
    intro g0
    rw [foldGroups, ih, keys_addGenres, List.flatMap_cons, addKeys_append]

theorem qualifies_eq_ok (m : Movie) (h : m.vote_count.isSome) :
    qualifies m = .ok (qualB m) := by
  cases hv : m.vote_count with
  | none => rw [hv] at h; exact Bool.noConfusion h
  | some v => simp [qualifies, qualB, hv]

theorem groupMovies_eq :
    ∀ (ms : List Movie) (g0 : List (String × List Movie)) (s0 : List Movie),
      (∀ m ∈ ms, m.vote_count.isSome) →
      groupMovies g0 s0 ms =
        .ok (foldGroups g0 (ms.filter qualB),
             s0 ++ ms.filter (fun m => !qualB m)) := by
  intro ms
  induction ms with
  | nil => intro g0 s0 _; simp [groupMovies, foldGroups]
  | cons m rest ih =>
    intro g0 s0 h
    have hm : m.vote_count.isSome := h m (List.mem_cons_self m rest)
    have hrest : ∀ m2 ∈ rest, m2.vote_count.isSome :=
      fun m2 hm2 => h m2 (List.mem_cons_of_mem m hm2)
    rw [groupMovies, qualifies_eq_ok m hm]
    by_cases hq : qualB m
    · simp only [hq]
      rw [ih _ _ hrest]
      simp [List.filter_cons, hq, foldGroups]
    · simp only [Bool.not_eq_true] at hq
      simp only [hq]
      rw [ih _ _ hrest]
      simp [List.filter_cons, hq, List.append_assoc]

theorem groupMovies_isSome :
    ∀ (ms : List Movie) (g0 : List (String × List Movie)) (s0 : List Movie) r,
      groupMovies g0 s0 ms = .ok r → ∀ m ∈ ms, m.vote_count.isSome := by
  intro ms
  induction ms with
  | nil => intro g0 s0 r _ m hm; exact absurd hm (List.not_mem_nil m)
  | cons m rest ih =>
    intro g0 s0 r hok m2 hm2
    rw [groupMovies] at hok
    cases hv : m.vote_count with
    | none =>
      simp [qualifies, hv] at hok
    | some v =>
      rcases List.mem_cons.mp hm2 with h | h
      · subst h; rw [hv]; rfl
      · have hs : m.vote_count.isSome := by rw [hv]; rfl
        rw [qualifies_eq_ok m hs] at hok
        by_cases hq : qualB m
        · rw [hq] at hok
          exact ih _ _ _ hok m2 h
        · rw [Bool.not_eq_true] at hq
          rw [hq] at hok
          exact ih _ _ _ hok m2 h

theorem mem_assoc_eq_lookupD :
    ∀ (s : List (String × List Movie)) (p : String × List Movie),
      (s.map Prod.fst).Nodup → p ∈ s → p.2 = lookupD p.1 s := by
  intro s
  induction s with
  | nil => intro p _ hp; exact absurd hp (List.not_mem_nil p)
  | cons q rest ih =>
    intro p hnd hp
    rcases List.mem_cons.mp hp with h | h
    · subst h
      simp [lookupD, List.find?]
    · have hq : q.1 ∉ rest.map Prod.fst := by
        rw [List.map_cons] at hnd
        exact (List.nodup_cons.mp hnd).1
      have hne : q.1 ≠ p.1 := by
        intro he
        exact hq (he ▸ List.mem_map_of_mem Prod.fst h)
      have hd : (decide (q.1 = p.1)) = false := by simp [hne]
      have : lookupD p.1 (q :: rest) = lookupD p.1 rest := by
        simp [lookupD, List.find?, hd]
      rw [this]
      refine ih p ?_ h
      rw [List.map_cons] at hnd
      exact (List.nodup_cons.mp hnd).2

/-! ### Sorting lemmas -/

theorem insertByRating_perm (m : Movie) :
    ∀ l : List Movie, (insertByRating m l).Perm (m :: l) := by
  intro l
  induction l with
  | nil => rw [insertByRating]
  | cons x xs ih =>
    rw [insertByRating]
    by_cases h : x.rating ≤ m.rating
    · rw [if_pos h]
    · rw [if_neg h]
      exact (List.Perm.cons x ih).trans (List.Perm.swap m x xs)

theorem sortByRatingDesc_perm :
    ∀ l : List Movie, (sortByRatingDesc l).Perm l := by
  intro l
  induction l with
  | nil => rw [sortByRatingDesc]
  | cons m rest ih =>
    rw [sortByRatingDesc]
    exact (insertByRating_perm m (sortByRatingDesc rest)).trans (List.Perm.cons m ih)

theorem sortByRatingDesc_length (l : List Movie) :
    (sortByRatingDesc l).length = l.length :=
  (sortByRatingDesc_perm l).length_eq

theorem mem_insertByRating (m y : Movie) (l : List Movie) :
    y ∈ insertByRating m l ↔ y = m ∨ y ∈ l := by
  rw [(insertByRating_perm m l).mem_iff, List.mem_cons]

theorem insertByRating_pairwise (m : Movie) :
    ∀ l : List Movie,
      l.Pairwise (fun a b => b.rating ≤ a.rating) →
      (insertByRating m l).Pairwise (fun a b => b.rating ≤ a.rating) := by
  intro l
  induction l with
  | nil => intro _; simp [insertByRating]
  | cons x xs ih =>
    intro hp
    rw [insertByRating]
    rcases List.pairwise_cons.mp hp with ⟨hx, hxs⟩
    by_cases h : x.rating ≤ m.rating
    · rw [if_pos h]
      refine List.pairwise_cons.mpr ⟨?_, hp⟩
      intro y hy
      rcases List.mem_cons.mp hy with hy | hy
      · subst hy; exact h
      · exact le_trans (hx y hy) h
    · rw [if_neg h]
      refine List.pairwise_cons.mpr ⟨?_, ih hxs⟩
      intro y hy
      rcases (mem_insertByRating m y xs).mp hy with hy | hy
      · subst hy; exact le_of_lt (lt_of_not_le h)
      · exact hx y hy

theorem sortByRatingDesc_pairwise :
    ∀ l : List Movie,
      (sortByRatingDesc l).Pairwise (fun a b => b.rating ≤ a.rating) := by
  intro l
  induction l with
  | nil => simp [sortByRatingDesc]
  | cons m rest ih =>
    rw [sortByRatingDesc]
    exact insertByRating_pairwise m (sortByRatingDesc rest) ih

theorem filter_rating_insertByRating (m : Movie) (r : ℚ) :
    ∀ l : List Movie,
      (insertByRating m l).filter (fun x => decide (x.rating = r)) =
        if m.rating = r then
          m :: l.filter (fun x => decide (x.rating = r))
        else l.filter (fun x => decide (x.rating = r)) := by
  intro l
  induction l with
  | nil =>
    rw [insertByRating]
    by_cases h : m.rating = r
    · simp [List.filter, h]
    · simp [List.filter, h]
  | cons x xs ih =>
    rw [insertByRating]
    by_cases h : x.rating ≤ m.rating
    · rw [if_pos h]
      by_cases hm : m.rating = r
      · simp [List.filter_cons, hm]
      · simp [List.filter_cons, hm]
    · rw [if_neg h]
      have hgt : m.rating < x.rating := lt_of_not_le h
      by_cases hm : m.rating = r
      · have hx : ¬ x.rating = r := fun he => (ne_of_gt hgt) (he.trans hm.symm)
        simp [List.filter_cons, hx, ih, hm]
      · by_cases hx : x.rating = r
        · simp [List.filter_cons, hx, ih, hm]
        · simp [List.filter_cons, hx, ih, hm]

theorem filter_rating_sortByRatingDesc (r : ℚ) :
    ∀ l : List Movie,
      (sortByRatingDesc l).filter (fun x => decide (x.rating = r)) =
        l.filter (fun x => decide (x.rating = r)) := by
  intro l
  induction l with
  | nil => rw [sortByRatingDesc]
  | cons m rest ih =>
    rw [sortByRatingDesc, filter_rating_insertByRating]
    by_cases hm : m.rating = r
    · rw [if_pos hm, ih, List.filter_cons]
      simp [hm]
    · rw [if_neg hm, ih, List.filter_cons]
      simp [hm]

/-! ### Stats-loop lemmas -/

theorem aggregateGenre_ok (top_count : Nat) (g : String) (gms : List Movie)
    (s : GenreStats) (h : aggregateGenre top_count g gms = .ok s) :
    s.genre_name = g ∧ s.movie_count = gms.length ∧
      s.top_movies = (sortByRatingDesc gms).take top_count := by
  rw [aggregateGenre] at h
  cases hp : sumPopularity gms with
  | error e => rw [hp] at h; exact Except.noConfusion h
  | ok popSum =>
    rw [hp] at h
    cases hv : sumVotes gms with
    | error e => rw [hv] at h; exact Except.noConfusion h
    | ok total_votes =>
      rw [hv] at h
      simp only [Except.ok.injEq] at h
      subst h
      exact ⟨rfl, rfl, rfl⟩

theorem statsLoop_forall2 (top_count : Nat) :
    ∀ (groups : List (String × List Movie)) (res : List GenreStats),
      (∀ p ∈ groups, p.2 ≠ []) →
      statsLoop top_count groups = .ok res →
      List.Forall₂ (fun (p : String × List Movie) (s : GenreStats) =>
        aggregateGenre top_count p.1 p.2 = .ok s) groups res := by
  intro groups
  induction groups with
  | nil =>
    intro res _ hok
    rw [statsLoop] at hok
    cases hok
    exact List.Forall₂.nil
  | cons p rest ih =>
    intro res hne hok
    cases p with
    | mk g gms =>
      rw [statsLoop] at hok
      have hgms : gms ≠ [] := hne (g, gms) (List.mem_cons_self _ _)
      rw [if_neg hgms] at hok
      cases ha : aggregateGenre top_count g gms with
      | error e => rw [ha] at hok; exact Except.noConfusion hok
      | ok s =>
        rw [ha] at hok
        cases hr : statsLoop top_count rest with
        | error e => rw [hr] at hok; exact Except.noConfusion hok
        | ok res2 =>
          rw [hr] at hok
          simp only [Except.ok.injEq] at hok
          subst hok
          refine List.Forall₂.cons ha ?_
          exact ih res2 (fun q hq => hne q (List.mem_cons_of_mem _ hq)) hr

/-! ### Anatomy of a successful calculate_stats run -/

theorem qualB_true_iff (m : Movie) :
    qualB m = true ↔ (∃ v, m.vote_count = some v ∧ 0 < v) ∧ 0 < m.rating := by
  cases hv : m.vote_count with
  | none => simp [qualB, hv]
  | some v =>
    simp only [qualB, hv, Bool.and_eq_true, decide_eq_true_eq]
    constructor
    · rintro ⟨h1, h2⟩; exact ⟨⟨v, rfl, h1⟩, h2⟩
    · rintro ⟨⟨v2, hv2, h1⟩, h2⟩
      cases hv2
      exact ⟨h1, h2⟩

theorem mem_groupOf_qualB (g : String) (movies : List Movie) (m : Movie)
    (h : m ∈ groupOf g movies) : qualB m = true := by
  rw [groupOf] at h
  rcases List.mem_flatMap.mp h with ⟨m2, hm2, hrep⟩
  have := List.eq_of_mem_replicate hrep
  subst this
  exact (List.mem_filter.mp hm2).2

theorem groupOf_ne_nil (g : String) (movies : List Movie)
    (h : g ∈ addKeys [] ((movies.filter qualB).flatMap Movie.genres)) :
    groupOf g movies ≠ [] := by
  rcases (mem_addKeys g _ []).mp h with h2 | h2
  · exact absurd h2 (List.not_mem_nil g)
  · rcases List.mem_flatMap.mp h2 with ⟨m, hm, hg⟩
    intro hnil
    rw [groupOf] at hnil
    have := List.flatMap_eq_nil_iff.mp hnil m hm
    rw [List.replicate_eq_nil_iff] at this
    rw [List.count_eq_zero] at this
    exact this hg

theorem groups_eq_groupOf (movies : List Movie)
    (groups : List (String × List Movie)) (skipped : List Movie)
    (hok : groupMovies [] [] movies = .ok (groups, skipped)) :
    groups = foldGroups [] (movies.filter qualB) ∧
      (∀ p ∈ groups, p.2 = groupOf p.1 movies) ∧
      (∀ p ∈ groups, p.2 ≠ []) := by
  have hsome : ∀ m ∈ movies, m.vote_count.isSome :=
    groupMovies_isSome movies [] [] _ hok
  rw [groupMovies_eq movies [] [] hsome] at hok
  simp only [Except.ok.injEq, Prod.mk.injEq] at hok
  obtain ⟨hg, _⟩ := hok
  subst hg
  have hnd : ((foldGroups [] (movies.filter qualB)).map Prod.fst).Nodup := by
    rw [keys_foldGroups]
    exact nodup_addKeys _ _ (by simp)
  have hval : ∀ p ∈ foldGroups [] (movies.filter qualB), p.2 = groupOf p.1 movies := by
    intro p hp
    rw [mem_assoc_eq_lookupD _ p hnd hp, lookupD_foldGroups]
    simp [lookupD, groupOf]
  refine ⟨rfl, hval, ?_⟩
  intro p hp
  rw [hval p hp]
  refine groupOf_ne_nil p.1 movies ?_
  have : p.1 ∈ (foldGroups [] (movies.filter qualB)).map Prod.fst :=
    List.mem_map_of_mem Prod.fst hp
  rw [keys_foldGroups] at this
  simpa using this

theorem calc_ok_anatomy (movies : List Movie) (topc : Nat)
    (res : List GenreStats) (h : calculate_stats movies topc = .ok res) :
    (∀ m ∈ movies, m.vote_count.isSome) ∧
      statsLoop topc (foldGroups [] (movies.filter qualB)) = .ok res ∧
      List.Forall₂
        (fun (p : String × List Movie) (s : GenreStats) =>
          aggregateGenre topc p.1 p.2 = .ok s)
        (foldGroups [] (movies.filter qualB)) res ∧
      (∀ p ∈ foldGroups [] (movies.filter qualB), p.2 = groupOf p.1 movies ∧ p.2 ≠ []) := by
  rw [calculate_stats] at h
  cases hg : groupMovies [] [] movies with
  | error e => rw [hg] at h; exact Except.noConfusion h
  | ok r =>
    rw [hg] at h
    cases r with
    | mk groups skipped =>
      obtain ⟨hgeq, hval, hne⟩ := groups_eq_groupOf movies groups skipped hg
      subst hgeq
      have hsome : ∀ m ∈ movies, m.vote_count.isSome :=
        groupMovies_isSome movies [] [] _ hg
      exact ⟨hsome, h, statsLoop_forall2 topc _ res hne h,
        fun p hp => ⟨hval p hp, hne p hp⟩⟩

theorem forall2_map_genre_name (topc : Nat) :
    ∀ (groups : List (String × List Movie)) (res : List GenreStats),
      List.Forall₂
        (fun (p : String × List Movie) (s : GenreStats) =>
          aggregateGenre topc p.1 p.2 = .ok s) groups res →
      res.map GenreStats.genre_name = groups.map Prod.fst := by
  intro groups
  induction groups with
  | nil =>
    intro res h
    cases h
    rfl
  | cons p rest ih =>
    intro res h
    cases h with
    | cons ha htail =>
      rename_i s res2
      rw [List.map_cons, List.map_cons, ih res2 htail]
      rw [(aggregateGenre_ok topc p.1 p.2 s ha).1]

theorem forall2_mem_right {α β : Type} {R : α → β → Prop} :
    ∀ (l1 : List α) (l2 : List β), List.Forall₂ R l1 l2 →
      ∀ b ∈ l2, ∃ a ∈ l1, R a b := by
  intro l1
  induction l1 with
  | nil =>
    intro l2 h b hb
    cases h
    exact absurd hb (List.not_mem_nil b)
  | cons a rest ih =>
    intro l2 h b2 hb2
    cases h with
    | cons ha htail =>
      rcases List.mem_cons.mp hb2 with hb2 | hb2
      · subst hb2; exact ⟨a, List.mem_cons_self _ _, ha⟩
      · rcases ih _ htail b2 hb2 with ⟨a2, ha2, hr⟩
        exact ⟨a2, List.mem_cons_of_mem _ ha2, hr⟩

/-! ### Concrete fixtures -/

/-- A raw entry carrying two genre ids, used for the cross-genre duplicate
scenario. -/
def rawAB : RawMovie :=
  { id := 7, title := "x", vote_average := 5, genre_ids := some [1, 2],
    poster_path := none, release_date := none,
    popularity := some 1, vote_count := some 3 }

/-- The two-genre map of the duplicate scenario: genre A before genre B. -/
def gmAB : List (Int × String) := [(1, "A"), (2, "B")]

/-- A discovery oracle on which every genre's first page returns exactly the
shared movie `rawAB` and later pages are empty. -/
def fetchAB : Int → Nat → Option (List RawMovie) :=
  fun _ p => if p = 1 then some [rawAB] else some []

/-- A raw entry used for duplicate counting in the popular listing. -/
def rawDup : RawMovie :=
  { id := 4, title := "d", vote_average := 6, genre_ids := some [9],
    poster_path := none, release_date := none,
    popularity := some 2, vote_count := some 5 }

/-- A popular-listing oracle whose single page repeats `rawDup` twice. -/
def fetchDup : Nat → Option (List RawMovie) := fun _ => some [rawDup, rawDup]

/-- A popular-listing oracle whose single page returns `rawDup` once. -/
def fetchOnce : Nat → Option (List RawMovie) := fun _ => some [rawDup]

/-- A raw entry whose `genre_ids` field is absent. -/
def rawNoGid : RawMovie :=
  { id := 11, title := "n", vote_average := 4, genre_ids := none,
    poster_path := none, release_date := none,
    popularity := some 1, vote_count := some 1 }

/-- A raw entry already recorded in the seen set of `stSeen3`. -/
def raw3 : RawMovie :=
  { id := 3, title := "s", vote_average := 2, genre_ids := some [1],
    poster_path := none, release_date := none,
    popularity := some 1, vote_count := some 1 }

/-- A fetch state that has already seen id 3 but retained nothing. -/
def stSeen3 : FetchState := { processed := [], seen := [3], dups := 0 }

/-- A raw entry with two unresolvable genre ids, both mapping to "Other". -/
def raw997 : RawMovie :=
  { id := 7, title := "x", vote_average := 5, genre_ids := some [997, 998],
    poster_path := none, release_date := none,
    popularity := some 2, vote_count := some 3 }

/-- A popular-listing oracle returning only `raw997`. -/
def fetch997 : Nat → Option (List RawMovie) := fun _ => some [raw997]

/-- The processed movie built from `raw997`: both genre ids resolve to the
"Other" sentinel, so its genre list holds "Other" twice. -/
def mOther : Movie := mkMovie raw997 ["Other", "Other"]

/-- A processed movie whose raw entry lacked `popularity` (the fetcher stored
the Python value `None`). -/
def mNoPop : Movie :=
  { id := 1, title := "t", rating := 7, genres := ["Action"],
    poster_path := none, release_date := none,
    popularity := none, vote_count := some 10 }

/-- A processed movie whose raw entry lacked `vote_count`. -/
def mNoVC : Movie :=
  { id := 2, title := "u", rating := 7, genres := ["Action"],
    poster_path := none, release_date := none,
    popularity := some 1, vote_count := none }

/-- A well-formed qualifying movie. -/
def mGood : Movie :=
  { id := 21, title := "g", rating := 7, genres := ["Action"],
    poster_path := none, release_date := none,
    popularity := some 1, vote_count := some 2 }

/-- A movie with a zero rating, excluded from all statistics. -/
def mBad : Movie :=
  { id := 22, title := "b", rating := 0, genres := ["Action"],
    poster_path := none, release_date := none,
    popularity := some 9, vote_count := some 9 }

/-! ### Claims -/

/-- C1: in `get_representative_movies`, a raw entry whose id is already in
the global `seen_ids` set (and whose per-genre count is still below the
target) increments `duplicates_count` by one and the per-genre collected
count by one, and appends nothing — the loop simply continues on the rest of
the page with the updated counters.  Hence, in the concrete two-genre
scenario where the same movie is the sole result of genre A (processed
first) and of genre B: the movie is appended exactly once — already during
genre A, whose page loop ends with `duplicates_count = 0` and one retained
item — the whole run ends with `duplicates_count = 1` (the increment
happening during genre B), and genre B's page loop still counts the
duplicate toward its quota (its per-genre count ends at 1). -/
theorem claim_C1_duplicate_handling :
    (∀ (gm : List (Int × String)) (target : Nat) (st : FetchState) (coll : Nat)
       (m : RawMovie) (rest : List RawMovie),
       coll < target → st.seen.contains m.id = true →
       reprMovies gm target st coll (m :: rest) =
         reprMovies gm target { st with dups := st.dups + 1 } (coll + 1) rest)
    ∧ get_representative_movies fetchAB gmAB 20 = [mkMovie rawAB ["A", "B"]]
    ∧ reprGenres fetchAB gmAB 20 1 gmAB initState =
        { processed := [mkMovie rawAB ["A", "B"]], seen := [7], dups := 1 }
    ∧ reprPages (fetchAB 1) gmAB 20 initState 0 [1] =
        ({ processed := [mkMovie rawAB ["A", "B"]], seen := [7], dups := 0 }, 1)
    ∧ (reprPages (fetchAB 2) gmAB 20
         { processed := [mkMovie rawAB ["A", "B"]], seen := [7], dups := 0 }
         0 [1]).2 = 1 := by
  refine ⟨?_, ?_, ?_, ?_, ?_⟩
  · intro gm target st coll m rest hlt hs
    rw [reprMovies, if_neg (Nat.not_le.mpr hlt), hs]
    rw [if_pos rfl]
  · with_unfolding_all rfl
  · with_unfolding_all rfl
  · with_unfolding_all rfl
  · with_unfolding_all rfl

theorem claim_C1_witness :
    reprMovies [] 1 stSeen3 0 [raw3] =
      reprMovies [] 1 { stSeen3 with dups := stSeen3.dups + 1 } (0 + 1) [] :=
  claim_C1_duplicate_handling.1 [] 1 stSeen3 0 raw3 []
    (by decide) (by decide)

/-- C6: after every run of `get_representative_movies`, the `seen_ids` set
is exactly the list of ids of the produced movies (so its size equals the
number of produced items), and it holds no id twice — every retained movie
was recorded in `seen_ids` exactly once and every recorded id belongs to
exactly one retained movie. -/
theorem claim_C6_seen_matches_items
    (fetch : Int → Nat → Option (List RawMovie))
    (gm : List (Int × String)) (target : Nat) :
    (reprGenres fetch gm target ((target + 19) / 20) gm initState).seen =
        (get_representative_movies fetch gm target).map Movie.id
      ∧ (reprGenres fetch gm target ((target + 19) / 20) gm initState).seen.Nodup
      ∧ (reprGenres fetch gm target ((target + 19) / 20) gm initState).seen.length =
          (get_representative_movies fetch gm target).length := by
  have h := reprGenres_inv fetch gm target ((target + 19) / 20) gm initState fetchInv_init
  refine ⟨h.1, h.2, ?_⟩
  rw [h.1, List.length_map]
  rfl

/-- C8: a page request with a non-success HTTP status never raises, in
either fetcher.  In `get_popular_movies` a failed page behaves exactly like
a page whose `results` list is empty: it contributes zero items and the page
loop continues unchanged (the whole run is equal to the run on the oracle
with every failure replaced by an empty success).  In
`get_representative_movies` a failed page breaks that genre's pagination
loop, returning the state — all items gathered so far — unchanged, and the
genre loop then continues with the next genre: a genre whose first page
fails leaves the run of the remaining genres untouched. -/
theorem claim_C8_failed_page
    : (∀ (fetch : Nat → Option (List RawMovie)) (gm : List (Int × String))
         (st : FetchState) (ps : List Nat),
         popularPages fetch gm st ps =
           popularPages (fun p => some ((fetch p).getD [])) gm st ps)
      ∧ (∀ (fetchg : Nat → Option (List RawMovie)) (gm : List (Int × String))
           (target : Nat) (st : FetchState) (coll : Nat) (p : Nat) (rest : List Nat),
           coll < target → fetchg p = none →
           reprPages fetchg gm target st coll (p :: rest) = (st, coll))
      ∧ (∀ (fetch : Int → Nat → Option (List RawMovie)) (gm : List (Int × String))
           (target P : Nat) (gid : Int) (gname : String)
           (rest : List (Int × String)) (st : FetchState),
           fetch gid 1 = none →
           reprGenres fetch gm target P ((gid, gname) :: rest) st =
             reprGenres fetch gm target P rest st) := by
  refine ⟨?_, ?_, ?_⟩
  · intro fetch gm st ps
    induction ps generalizing st with
    | nil => rfl
    | cons p rest ih =>
      rw [popularPages, popularPages]
      cases hf : fetch p with
      | none =>
        simp only [Option.getD_none]
        rw [show popularMovies gm st [] = .ok st from rfl]
        exact ih st
      | some results =>
        simp only [Option.getD_some]
        cases popularMovies gm st results with
        | error e => rfl
        | ok st2 => exact ih st2
  · intro fetchg gm target st coll p rest hlt hf
    rw [reprPages, if_neg (Nat.not_le.mpr hlt), hf]
  · intro fetch gm target P gid gname rest st hf
    rw [reprGenres]
    have hst : (reprPages (fetch gid) gm target st 0 (List.range' 1 P)).1 = st := by
      cases P with
      | zero => rfl
      | succ n =>
        rw [List.range'_succ, reprPages]
        by_cases h0 : (0 : Nat) ≥ target
        · rw [if_pos h0]
        · rw [if_neg h0, hf]
    rw [hst]

theorem claim_C8_witness :
    reprPages (fun _ => none) [] 5 initState 0 [1] = (initState, 0) :=
  claim_C8_failed_page.2.1 (fun _ => none) [] 5 initState 0 1 []
    (by decide) rfl

/-- C10: the two fetchers treat an absent `genre_ids` field differently.
`get_representative_movies` guards the access with a default, so a fresh
entry without the field (below quota) is appended with the category list
`["Other"]` and processing continues.  `get_popular_movies` reads
`m["genre_ids"]` unguarded, so a fresh entry without the field makes the
whole call raise a `KeyError`; its success therefore requires every raw
entry on every successful page to carry the field, and under that
precondition the page loop always returns a state (the error branch is
unreachable). -/
theorem claim_C10_genre_ids_guard
    : (∀ (gm : List (Int × String)) (target : Nat) (st : FetchState)
         (coll : Nat) (m : RawMovie) (rest : List RawMovie),
         m.genre_ids = none → st.seen.contains m.id = false → coll < target →
         reprMovies gm target st coll (m :: rest) =
           reprMovies gm target
             { processed := st.processed ++ [mkMovie m ["Other"]],
               seen := st.seen ++ [m.id], dups := st.dups } (coll + 1) rest)
      ∧ (∀ (gm : List (Int × String)) (st : FetchState) (m : RawMovie)
           (rest : List RawMovie),
           m.genre_ids = none → st.seen.contains m.id = false →
           popularMovies gm st (m :: rest) = .error "KeyError: genre_ids")
      ∧ (∀ (fetch : Nat → Option (List RawMovie)) (gm : List (Int × String))
           (pages : Nat),
           (∀ p, ∀ m ∈ (fetch p).getD [], m.genre_ids.isSome) →
           ∃ st, popularPages fetch gm initState (List.range' 1 pages) = .ok st) := by
  refine ⟨?_, ?_, ?_⟩
  · intro gm target st coll m rest hg hs hlt
    rw [reprMovies, if_neg (Nat.not_le.mpr hlt), hs]
    simp only [Bool.false_eq_true, if_false]
    rw [hg]
    rfl
  · intro gm st m rest hg hs
    rw [popularMovies, popularStep, hs]
    simp only [Bool.false_eq_true, if_false]
    rw [hg]
  · intro fetch gm pages hall
    have hmv : ∀ (ms : List RawMovie), (∀ m ∈ ms, m.genre_ids.isSome) →
        ∀ st, ∃ st2, popularMovies gm st ms = .ok st2 := by
      intro ms
      induction ms with
      | nil => intro _ st; exact ⟨st, rfl⟩
      | cons m rest ih =>
        intro hsome st
        have hm := hsome m (List.mem_cons_self m rest)
        have hrest := fun m2 hm2 => hsome m2 (List.mem_cons_of_mem m hm2)
        rw [popularMovies, popularStep]
        by_cases hs : st.seen.contains m.id
        · rw [if_pos hs]
          exact ih hrest _
        · rw [if_neg hs]
          cases hg : m.genre_ids with
          | none => rw [hg] at hm; exact Bool.noConfusion hm
          | some gids => exact ih hrest _
    have hps : ∀ (ps : List Nat) (st : FetchState),
        ∃ st2, popularPages fetch gm st ps = .ok st2 := by
      intro ps
      induction ps with
      | nil => intro st; exact ⟨st, rfl⟩
      | cons p rest ih =>
        intro st
        rw [popularPages]
        cases hf : fetch p with
        | none => exact ih st
        | some results =>
          have hres : ∀ m ∈ results, m.genre_ids.isSome := by
            intro m hm
            have := hall p
            rw [hf] at this
            exact this m hm
          rcases hmv results hres st with ⟨st2, hst2⟩
          rcases ih st2 with ⟨st3, hst3⟩
          refine ⟨st3, ?_⟩
          show (match popularMovies gm st results with
                | Except.error e => Except.error e
                | Except.ok st4 => popularPages fetch gm st4 rest) = Except.ok st3
          rw [hst2]
          exact hst3
    exact hps (List.range' 1 pages) initState

theorem claim_C10_witness :
    popularMovies [] initState [rawNoGid] = .error "KeyError: genre_ids" :=
  claim_C10_genre_ids_guard.2.1 [] initState rawNoGid [] rfl rfl

/-- The statistics record produced for the one-movie input `[mGood]`. -/
def sGood : GenreStats :=
  { genre_name := "Action", average_rating := 7, average_popularity := 1,
    total_votes := 2, movie_count := 1, top_movies := [mGood] }

/-- C2 counterexample: the claim says both retrieval strategies return the
pair `(items, duplicate_count)`; in the code both return only
`processed_movies`.  Two popular-listing runs whose internal
`duplicates_count` differs (1 on a page repeating an entry, 0 on the page
without the repetition) have exactly equal return values, so the returned
value cannot contain the duplicate count. -/
theorem claim_C2_counterexample :
    get_popular_movies fetchDup [] 1 = get_popular_movies fetchOnce [] 1
    ∧ popularPages fetchDup [] initState (List.range' 1 1) =
        .ok { processed := [mkMovie rawDup ["Other"]], seen := [4], dups := 1 }
    ∧ popularPages fetchOnce [] initState (List.range' 1 1) =
        .ok { processed := [mkMovie rawDup ["Other"]], seen := [4], dups := 0 } := by
  refine ⟨?_, ?_, ?_⟩
  · with_unfolding_all rfl
  · with_unfolding_all rfl
  · with_unfolding_all rfl

/-- C2 amended: both retrieval strategies return only the ordered sequence
of deduplicated movies (`processed_movies`); the duplicate count is tracked
internally (and only logged), not returned.  The returned sequence is indeed
deduplicated by id: its id list holds no id twice. -/
theorem claim_C2_amended :
    (∀ (fetch : Nat → Option (List RawMovie)) (gm : List (Int × String))
       (pages : Nat) (st : FetchState),
       popularPages fetch gm initState (List.range' 1 pages) = .ok st →
       get_popular_movies fetch gm pages = .ok st.processed
         ∧ (st.processed.map Movie.id).Nodup)
    ∧ (∀ (fetch : Int → Nat → Option (List RawMovie))
         (gm : List (Int × String)) (target : Nat),
         get_representative_movies fetch gm target =
           (reprGenres fetch gm target ((target + 19) / 20) gm initState).processed
         ∧ ((get_representative_movies fetch gm target).map Movie.id).Nodup) := by
  constructor
  · intro fetch gm pages st hok
    constructor
    · rw [get_popular_movies, hok]
    · have h := popularPages_inv fetch gm _ initState st fetchInv_init hok
      exact h.1 ▸ h.2
  · intro fetch gm target
    constructor
    · rfl
    · have h := reprGenres_inv fetch gm target ((target + 19) / 20) gm
        initState fetchInv_init
      exact h.1 ▸ h.2

theorem claim_C2_witness :
    get_popular_movies fetchOnce [] 1 = .ok [mkMovie rawDup ["Other"]]
      ∧ (([mkMovie rawDup ["Other"]] : List Movie).map Movie.id).Nodup :=
  claim_C2_amended.1 fetchOnce [] 1
    { processed := [mkMovie rawDup ["Other"]], seen := [4], dups := 0 }
    (by with_unfolding_all rfl)

/-- C3: provided every movie carries a numeric `vote_count` (so that the
Python filter can evaluate at all), `calculate_stats` excludes every movie
with `vote_count <= 0` or `rating <= 0` from every genre group before any
aggregation: its output on the input list equals its output on the input
with the non-qualifying movies removed (so an excluded movie influences no
record of the output at all), and every movie appearing in any group has a
positive vote count and a positive rating. -/
theorem claim_C3_excluded (movies : List Movie) (topc : Nat)
    (hs : ∀ m ∈ movies, m.vote_count.isSome) :
    calculate_stats movies topc = calculate_stats (movies.filter qualB) topc
    ∧ ∀ (groups : List (String × List Movie)) (skipped : List Movie),
        groupMovies [] [] movies = .ok (groups, skipped) →
        ∀ p ∈ groups, ∀ m ∈ p.2,
          (∃ v, m.vote_count = some v ∧ 0 < v) ∧ 0 < m.rating := by
  constructor
  · have hfil : ∀ m ∈ movies.filter qualB, m.vote_count.isSome :=
      fun m hm => hs m (List.mem_filter.mp hm).1
    have hff : (movies.filter qualB).filter qualB = movies.filter qualB :=
      List.filter_eq_self.mpr (fun a ha => (List.mem_filter.mp ha).2)
    rw [calculate_stats, calculate_stats, groupMovies_eq movies [] [] hs,
      groupMovies_eq _ [] [] hfil, hff]
  · intro groups skipped hok p hp m hm
    obtain ⟨_, hval, _⟩ := groups_eq_groupOf movies groups skipped hok
    rw [hval p hp] at hm
    exact (qualB_true_iff m).mp (mem_groupOf_qualB p.1 movies m hm)

theorem claim_C3_witness :
    calculate_stats [mGood, mBad] 10 =
      calculate_stats ([mGood, mBad].filter qualB) 10 :=
  (claim_C3_excluded [mGood, mBad] 10 (by decide)).1

/-- C4: every record of a successful `calculate_stats` run describes the
(non-empty) group of its genre: `movie_count` is the group size,
`top_movies` is the group stably sorted by rating in descending order and
truncated to `top_count`, so its length is `min top_count (group size)`, it
is sorted descending by rating, and — stability — for every rating value the
equally-rated movies of the sorted list appear in exactly their group order,
which is their order in the input collection (`groupOf` enumerates the input
in order). -/
theorem claim_C4_top_items (movies : List Movie) (topc : Nat)
    (res : List GenreStats) (s : GenreStats)
    (h : calculate_stats movies topc = .ok res) (hs : s ∈ res) :
    s.movie_count = (groupOf s.genre_name movies).length
    ∧ s.top_movies = (sortByRatingDesc (groupOf s.genre_name movies)).take topc
    ∧ s.top_movies.length = min topc (groupOf s.genre_name movies).length
    ∧ s.top_movies.Pairwise (fun a b => b.rating ≤ a.rating)
    ∧ ∀ r : ℚ,
        (sortByRatingDesc (groupOf s.genre_name movies)).filter
            (fun x => decide (x.rating = r)) =
          (groupOf s.genre_name movies).filter (fun x => decide (x.rating = r)) := by
  obtain ⟨hsome, hloop, hf2, hgr⟩ := calc_ok_anatomy movies topc res h
  rcases forall2_mem_right _ _ hf2 s hs with ⟨p, hp, hagg⟩
  obtain ⟨hname, hcount, htop⟩ := aggregateGenre_ok topc p.1 p.2 s hagg
  have hpg : p.2 = groupOf p.1 movies := (hgr p hp).1
  rw [hname, ← hpg]
  refine ⟨hcount, htop, ?_, ?_, ?_⟩
  · rw [htop, List.length_take, sortByRatingDesc_length]
  · rw [htop]
    exact List.Pairwise.sublist (List.take_sublist _ _) (sortByRatingDesc_pairwise p.2)
  · intro r
    exact filter_rating_sortByRatingDesc r p.2

theorem claim_C4_witness :
    sGood.movie_count = (groupOf sGood.genre_name [mGood]).length
    ∧ (sortByRatingDesc (groupOf sGood.genre_name [mGood])).filter
          (fun x => decide (x.rating = 7)) =
        (groupOf sGood.genre_name [mGood]).filter (fun x => decide (x.rating = 7)) :=
  ⟨(claim_C4_top_items [mGood] 10 [sGood] sGood (by with_unfolding_all rfl)
      (List.mem_singleton.mpr rfl)).1,
   (claim_C4_top_items [mGood] 10 [sGood] sGood (by with_unfolding_all rfl)
      (List.mem_singleton.mpr rfl)).2.2.2.2 7⟩

/-- C5 (code bug): the claim — and the spec — say a missing `popularity` or
`vote_count` is treated as 0 when aggregating, also for movies the fetcher
built from raw entries lacking those fields.  But the fetcher stores the
Python value `None` under those keys, so `calculate_stats` raises a
`TypeError` instead: summing `None` popularity crashes the aggregation, and
comparing `None` vote_count crashes the filter. -/
theorem claim_C5_none_crashes :
    calculate_stats [mNoPop] 10 =
        .error "TypeError: unsupported operand types for +: int and NoneType"
    ∧ calculate_stats [mNoVC] 10 =
        .error "TypeError: comparison not supported between NoneType and int" := by
  constructor
  · with_unfolding_all rfl
  · with_unfolding_all rfl

/-- C7: on a successful run, the genre names of the output records are, in
order, the first occurrences of the genre names of the qualifying movies in
input order (the key-insertion order of the grouping dict); a genre name
appears in the output exactly when some qualifying movie of the input
carries it (so a genre with zero qualifying movies yields no record), and no
output record is empty. -/
theorem claim_C7_output_order (movies : List Movie) (topc : Nat)
    (res : List GenreStats) (h : calculate_stats movies topc = .ok res) :
    res.map GenreStats.genre_name =
        addKeys [] ((movies.filter qualB).flatMap Movie.genres)
    ∧ (∀ g, g ∈ res.map GenreStats.genre_name ↔
          ∃ m, m ∈ movies ∧ qualB m = true ∧ g ∈ m.genres)
    ∧ ∀ s ∈ res, s.movie_count ≠ 0 := by
  obtain ⟨hsome, hloop, hf2, hgr⟩ := calc_ok_anatomy movies topc res h
  have hmap : res.map GenreStats.genre_name =
      (foldGroups [] (movies.filter qualB)).map Prod.fst :=
    forall2_map_genre_name topc _ res hf2
  refine ⟨?_, ?_, ?_⟩
  · rw [hmap, keys_foldGroups]
    rfl
  · intro g
    rw [hmap, keys_foldGroups, mem_addKeys]
    constructor
    · rintro (hg | hg)
      · exact absurd hg (List.not_mem_nil g)
      · rcases List.mem_flatMap.mp hg with ⟨m, hm, hgm⟩
        rcases List.mem_filter.mp hm with ⟨hm1, hm2⟩
        exact ⟨m, hm1, hm2, hgm⟩
    · rintro ⟨m, hm, hq, hgm⟩
      exact Or.inr (List.mem_flatMap.mpr ⟨m, List.mem_filter.mpr ⟨hm, hq⟩, hgm⟩)
  · intro s hs
    rcases forall2_mem_right _ _ hf2 s hs with ⟨p, hp, hagg⟩
    obtain ⟨_, hcount, _⟩ := aggregateGenre_ok topc p.1 p.2 s hagg
    rw [hcount]
    intro hlen
    exact (hgr p hp).2 (List.length_eq_zero.mp hlen)

theorem claim_C7_witness :
    ([sGood] : List GenreStats).map GenreStats.genre_name =
      addKeys [] (([mGood].filter qualB).flatMap Movie.genres) :=
  (claim_C7_output_order [mGood] 10 [sGood] (by with_unfolding_all rfl)).1

/-- C9: in the grouping loop of `calculate_stats`, a qualifying movie is
appended to a genre's group once per occurrence of that genre name in its
resolved genre list (`groupOf` replicates the movie `count` times), so a
movie whose two unresolved genre ids both map to the "Other" sentinel is
counted twice in that genre's `movie_count`, `total_votes` and averages,
and appears twice in its `top_movies` — shown end to end on a raw entry
with genre ids 997 and 998 under a map that resolves neither. -/
theorem claim_C9_multiplicity :
    (∀ (movies : List Movie) (groups : List (String × List Movie))
       (skipped : List Movie),
       groupMovies [] [] movies = .ok (groups, skipped) →
       ∀ p ∈ groups, p.2 = groupOf p.1 movies)
    ∧ get_popular_movies fetch997 [(28, "Action")] 1 = .ok [mOther]
    ∧ calculate_stats [mOther] 10 =
        .ok [{ genre_name := "Other", average_rating := 5, average_popularity := 2,
               total_votes := 6, movie_count := 2,
               top_movies := [mOther, mOther] }] := by
  refine ⟨?_, ?_, ?_⟩
  · intro movies groups skipped hok
    exact (groups_eq_groupOf movies groups skipped hok).2.1
  · with_unfolding_all rfl
  · with_unfolding_all rfl

theorem claim_C9_witness :
    ([mOther, mOther] : List Movie) = groupOf "Other" [mOther] :=
  claim_C9_multiplicity.1 [mOther] [("Other", [mOther, mOther])] []
    (by with_unfolding_all rfl) ("Other", [mOther, mOther])
    (List.mem_singleton.mpr rfl)
